import Mathlib

/-!
# Whale dashboard controller: a shallow embedding

A shallow embedding of the `Whale` class from `src/index.js`: the mutable
fields of the object become a record (`WhaleState`), each method body that
mutates the object becomes a function `WhaleState → WhaleState`, and the
asynchronous structure (timer ticks, fetch completions, key presses) becomes
an explicit event type `Event` with a dispatch function `step`.  Fetch
issuance is observable through counters (`coldFetches`, `priceFetches`,
`trendFetches`) incremented exactly where `api.getCurrentPrice` /
`api.getPriceTrend` are called; widget visibility (`log`, `error`, `help`)
and focus are tracked as fields.
-/

/-- The `exchange` descriptor supplied at construction: name, ordered period
list, optional default period (absent models a missing JS property). -/
structure Exchange where
  name : String
  periods : List String
  defaultPeriod : Option String
deriving Repr, DecidableEq

/-- One row of the current-price data: an element of the array returned by
`api.getCurrentPrice`. -/
structure PriceEntry where
  name : String
  price : Int
  change : Int
deriving Repr, DecidableEq

/-- The object returned by `api.getPriceTrend`: the market it describes
plus the chart series (field names as read by `updateLine`). -/
structure PriceTrend where
  currentMarket : String
  labels : List String
  closePricesList : List Int
deriving Repr, DecidableEq

/-- An HTTP response attached to a rejection, as inspected by
`errorHandler`: `request` models the truthiness of `err.response.request`. -/
structure JsResponse where
  request : Bool
  status : Nat
deriving Repr, DecidableEq

/-- A rejection value: `response = none` models `err.response` undefined. -/
structure JsError where
  response : Option JsResponse
deriving Repr, DecidableEq

/-- Which widget currently has keyboard focus (`start` = none of the
modeled widgets has been focused yet). -/
inductive Focus where
  | start
  | table
  | error
deriving Repr, DecidableEq

/-- The mutable state of a `Whale` instance: `this.*` fields, widget
visibility, the pending error-acknowledge callback, timer handles as
liveness flags, fetch-issue counters, and the process exit status. -/
structure WhaleState where
  exchange : Exchange
  markets : List String
  currentMarket : String
  currentPeriod : String
  currentPrice : Option (List PriceEntry)
  priceTrend : Option PriceTrend
  lastUpdate : Option Nat
  running : Bool
  timer : Option Nat
  priceTimerActive : Bool
  trendTimerActive : Bool
  logVisible : Bool
  errorVisible : Bool
  pendingCb : Bool
  helpVisible : Bool
  focus : Focus
  coldFetches : Nat
  priceFetches : Nat
  trendFetches : Nat
  exited : Option Nat
deriving Repr, DecidableEq

namespace Whale

/-- JS `a || b` on a string-or-undefined value: the empty string is falsy. -/
def jsOr (a : Option String) (b : String) : String :=
  match a with
  | some s => if s = "" then b else s
  | none => b

/-- The constructor: field initialisation, `initScreen`, `initDashBoard`,
`eventListeners` (which creates both interval timers), then `init()` which
logs a message and issues the cold fetch. -/
def new (exchange : Exchange) (markets : List String) : WhaleState :=
  { exchange := exchange
  , markets := markets
  , currentMarket := markets.headD ""
  , currentPeriod := jsOr exchange.defaultPeriod (exchange.periods.headD "")
  , currentPrice := none
  , priceTrend := none
  , lastUpdate := none
  , running := false
  , timer := none
  , priceTimerActive := true
  , trendTimerActive := true
  , logVisible := true
  , errorVisible := false
  , pendingCb := false
  , helpVisible := false
  , focus := Focus.start
  , coldFetches := 1
  , priceFetches := 0
  , trendFetches := 0
  , exited := none }

/-- Method `logMsg(msg)`: shows the log box. -/
def logMsg (s : WhaleState) : WhaleState := { s with logVisible := true }

/-- Method `hideLog()`: hides the log box. -/
def hideLog (s : WhaleState) : WhaleState := { s with logVisible := false }

/-- Method `updateTable()`: early-returns unless `running`; otherwise sets table
data and label and focuses the table. -/
def updateTable (s : WhaleState) : WhaleState :=
  if s.running then { s with focus := Focus.table } else s

/-- Method `updateLine()`: early-returns unless `running`; sets chart data and
label, touching no modeled state. -/
def updateLine (s : WhaleState) : WhaleState := s

/-- Method `toggleHelp()`: flips help-box visibility. -/
def toggleHelp (s : WhaleState) : WhaleState :=
  { s with helpVisible := !s.helpVisible }

/-- Method `logError(msg, cb)`: shows and focuses the error box and binds a
once-only enter handler carrying `cb` (`cb = true` models the bound
retry-`init` callback, `false` models `cb` null). -/
def logError (cb : Bool) (s : WhaleState) : WhaleState :=
  { s with errorVisible := true, focus := Focus.error, pendingCb := cb }

/-- Truthiness of `err.response && err.response.request`, the transport
test in `errorHandler`. -/
def isTransportError (err : JsError) : Bool :=
  match err.response with
  | some r => r.request
  | none => false

/-- Method `errorHandler(err, cb)`: a transport error goes to the error overlay
with `cb` bound; anything else is fatal, `process.exit(1)`. -/
def errorHandler (err : JsError) (cb : Bool) (s : WhaleState) : WhaleState :=
  if isTransportError err then logError cb s
  else { s with exited := some 1 }

/-- The synchronous prefix of `init()`: log a message and issue the cold
`fetchAll` (counted in `coldFetches`); the completion arrives later as a
`coldSuccess` or `coldFailure` event. -/
def initStart (s : WhaleState) : WhaleState :=
  { (logMsg s) with coldFetches := s.coldFetches + 1 }

/-- The `.then` continuation of `init()`: set `running`, store both
datasets and the timestamp, hide the log, refresh table and chart. -/
def initThen (prices : List PriceEntry) (trend : PriceTrend) (now : Nat)
    (s : WhaleState) : WhaleState :=
  updateLine (updateTable (hideLog
    { s with running := true
           , currentPrice := some prices
           , priceTrend := some trend
           , lastUpdate := some now }))

/-- The `.catch` continuation of `init()`: hide the log and route the
error to `errorHandler` with `init` itself as the retry callback. -/
def initCatch (err : JsError) (s : WhaleState) : WhaleState :=
  errorHandler err true (hideLog s)

/-- The synchronous prefix of `updateCurrentPrice()`: early return unless
`running`; otherwise log and issue the price fetch. -/
def updateCurrentPriceStart (s : WhaleState) : WhaleState :=
  if s.running then { (logMsg s) with priceFetches := s.priceFetches + 1 }
  else s

/-- The `.then` continuation of `updateCurrentPrice()`: store the entries,
stamp `lastUpdate`, refresh the table, hide the log. -/
def updateCurrentPriceThen (res : List PriceEntry) (now : Nat)
    (s : WhaleState) : WhaleState :=
  hideLog (updateTable { s with currentPrice := some res, lastUpdate := some now })

/-- The synchronous prefix of `updatePriceTrend()`: early return unless
`running`; otherwise log and issue the trend fetch for
(`currentMarket`, `currentPeriod`) as they are right now. -/
def updatePriceTrendStart (s : WhaleState) : WhaleState :=
  if s.running then { (logMsg s) with trendFetches := s.trendFetches + 1 }
  else s

/-- The `.then` continuation of `updatePriceTrend()`: store the fetched
series (unconditionally), refresh the chart, hide the log. -/
def updatePriceTrendThen (d : PriceTrend) (s : WhaleState) : WhaleState :=
  hideLog (updateLine { s with priceTrend := some d })

/-- The escape/q/C-c handler: with help visible, `toggleHelp` and return;
otherwise evaluate `this.timer && clearInterval(this.timer)` — the field
`timer` is never assigned anywhere (the interval handles live in
`timers.price` / `timers.trend`), so the guard is always undefined and no
interval is cleared — then `process.exit(0)`. -/
def quitKey (s : WhaleState) : WhaleState :=
  if s.helpVisible then toggleHelp s
  else
    match s.timer with
    | some _ => { s with timer := none, exited := some 0 }
    | none => { s with exited := some 0 }

/-- A period key `ch` (bound for `1 ≤ ch ≤ periods.length`): set
`currentPeriod := periods[ch-1]` unconditionally, then call
`updatePriceTrend()` (whose own `running` guard may skip the fetch). -/
def periodKey (ch : Nat) (s : WhaleState) : WhaleState :=
  if 1 ≤ ch ∧ ch ≤ s.exchange.periods.length then
    updatePriceTrendStart
      { s with currentPeriod := s.exchange.periods.getD (ch - 1) "" }
  else s

/-- The table row-select handler: early return unless `running`; set
`currentMarket := data.currentPrice[idx].name` and call
`updatePriceTrend()`.  The substrate only delivers in-range row indices
(out of range would be a TypeError on `undefined.name` in JS), so the
out-of-range and missing-data branches are modeled as identity. -/
def rowSelect (idx : Nat) (s : WhaleState) : WhaleState :=
  if s.running then
    match s.currentPrice with
    | some l =>
      match l.get? idx with
      | some entry => updatePriceTrendStart { s with currentMarket := entry.name }
      | none => s
    | none => s
  else s

/-- The once-only enter handler bound by `logError`: live only while the
error box is visible; hides it, refocuses the table, and runs the pending
callback (`init`, re-issuing the cold fetch) when one was bound. -/
def errorAck (s : WhaleState) : WhaleState :=
  if s.errorVisible then
    let t := { s with errorVisible := false, focus := Focus.table, pendingCb := false }
    if s.pendingCb then initStart t else t
  else s

end Whale

/-- The asynchronous events delivered to the controller: timer ticks,
fetch completions (carrying the payload captured at issue time), and key /
selection input from the rendering substrate. -/
inductive Event where
  | coldSuccess (prices : List PriceEntry) (trend : PriceTrend) (now : Nat)
  | coldFailure (err : JsError)
  | priceTick
  | priceSuccess (res : List PriceEntry) (now : Nat)
  | priceFailure (err : JsError)
  | trendTick
  | trendSuccess (d : PriceTrend)
  | trendFailure (err : JsError)
  | keyQuit
  | keyHelp
  | keyPeriod (ch : Nat)
  | rowSelectEvt (idx : Nat)
  | keyEnter
deriving Repr, DecidableEq

/-- Run-to-completion dispatch of one event: after `process.exit` no
handler runs. The `?` key calls `help.show` (not `toggleHelp`). -/
def step (s : WhaleState) (e : Event) : WhaleState :=
  if s.exited.isSome then s
  else
    match e with
    | .coldSuccess prices trend now => Whale.initThen prices trend now s
    | .coldFailure err => Whale.initCatch err s
    | .priceTick => Whale.updateCurrentPriceStart s
    | .priceSuccess res now => Whale.updateCurrentPriceThen res now s
    | .priceFailure err => Whale.errorHandler err false s
    | .trendTick => Whale.updatePriceTrendStart s
    | .trendSuccess d => Whale.updatePriceTrendThen d s
    | .trendFailure err => Whale.errorHandler err false s
    | .keyQuit => Whale.quitKey s
    | .keyHelp => { s with helpVisible := true }
    | .keyPeriod ch => Whale.periodKey ch s
    | .rowSelectEvt idx => Whale.rowSelect idx s
    | .keyEnter => Whale.errorAck s

/-- A whole execution: fold the event sequence through `step`. -/
def run (s : WhaleState) (es : List Event) : WhaleState := es.foldl step s

/-- A concrete exchange (no default period) used to evaluate the model. -/
def exBF : Exchange :=
  { name := "Bitflyer", periods := ["1h", "1d"], defaultPeriod := none }

/-- A concrete exchange with a default period set. -/
def exDP : Exchange :=
  { name := "Kraken", periods := ["1h", "1d"], defaultPeriod := some "1d" }

/-- A concrete market list. -/
def mkBF : List String := ["BTC", "ETH"]

/-- A concrete current-price payload: one entry per market, in order. -/
def entriesBF : List PriceEntry := [⟨"BTC", 100, 1⟩, ⟨"ETH", 10, 0⟩]

/-- A trend series describing BTC. -/
def trendBTC : PriceTrend := ⟨"BTC", ["a"], [1]⟩

/-- A trend series describing ETH. -/
def trendETH : PriceTrend := ⟨"ETH", ["b"], [2]⟩

/-- A transport-level rejection: carries an HTTP response with a request. -/
def errT : JsError := ⟨some ⟨true, 500⟩⟩

/-- An internal rejection: no HTTP response attached. -/
def errI : JsError := ⟨none⟩

/-- The state right after a successful cold start. -/
def sRun : WhaleState :=
  run (Whale.new exBF mkBF) [Event.coldSuccess entriesBF trendBTC 5]

/-- A running state whose error overlay was opened by a transport failure
of a periodic price fetch. -/
def sErr : WhaleState := run sRun [Event.priceTick, Event.priceFailure errT]

/-- A running state with a stale BTC trend fetch in flight: a trend tick
was issued while BTC was selected, then the user selected ETH (row 1,
issuing an ETH fetch) and the ETH result has already been stored; the BTC
completion is still pending. -/
def sStale : WhaleState :=
  run sRun [Event.trendTick, Event.rowSelectEvt 1, Event.trendSuccess trendETH]

/-- The view-state invariant of the spec's data model, together with the
auxiliary fact about the stored price table that pushes it through row
selection. -/
def stateInv (s : WhaleState) : Prop :=
  s.currentMarket ∈ s.markets
  ∧ s.currentPeriod ∈ s.exchange.periods
  ∧ ∀ l, s.currentPrice = some l → ∀ x ∈ l, x.name ∈ s.markets

/-- Modelled from the spec: the data-source client `libs/api` is not under
`src/`; per the spec's data model, `getCurrentPrice(exchange, markets)`
resolves with one `PriceEntry` per market, in markets-list order, so the
entry names are exactly the markets list.  An event is good when every
current-price payload it carries satisfies that contract. -/
def goodEvent (markets : List String) : Event → Prop
  | .coldSuccess p _ _ => p.map PriceEntry.name = markets
  | .priceSuccess p _ => p.map PriceEntry.name = markets
  | _ => True

namespace Whale

/-- No event changes the `markets` list supplied at construction. -/
lemma step_markets (s : WhaleState) (e : Event) : (step s e).markets = s.markets := by
  unfold step
  split
  · rfl
  · cases e <;>
      simp only [initThen, initCatch, updateCurrentPriceStart, updateCurrentPriceThen,
        errorHandler, updatePriceTrendStart, updatePriceTrendThen, quitKey, periodKey,
        rowSelect, errorAck, logMsg, hideLog, updateTable, updateLine, toggleHelp,
        logError, initStart] <;>
      first
        | rfl
        | ((repeat' split) <;> rfl)

/-- No event changes the `exchange` descriptor supplied at construction. -/
lemma step_exchange (s : WhaleState) (e : Event) : (step s e).exchange = s.exchange := by
  unfold step
  split
  · rfl
  · cases e <;>
      simp only [initThen, initCatch, updateCurrentPriceStart, updateCurrentPriceThen,
        errorHandler, updatePriceTrendStart, updatePriceTrendThen, quitKey, periodKey,
        rowSelect, errorAck, logMsg, hideLog, updateTable, updateLine, toggleHelp,
        logError, initStart] <;>
      first
        | rfl
        | ((repeat' split) <;> rfl)

/-- Only a cold-fetch success event can change the `running` flag. -/
lemma step_running (s : WhaleState) (e : Event) :
    (step s e).running = s.running ∨ ∃ p t n, e = Event.coldSuccess p t n := by
  unfold step
  split
  · exact Or.inl rfl
  · cases e
    case coldSuccess p t n => exact Or.inr ⟨p, t, n, rfl⟩
    all_goals refine Or.inl ?_
    all_goals
      (simp only [initCatch, updateCurrentPriceStart, updateCurrentPriceThen,
        errorHandler, updatePriceTrendStart, updatePriceTrendThen, quitKey, periodKey,
        rowSelect, errorAck, logMsg, hideLog, updateTable, updateLine, toggleHelp,
        logError, initStart] <;>
      first
        | rfl
        | ((repeat' split) <;> rfl))

/-- Only a cold-fetch success or a price-fetch success can change the
`lastUpdate` timestamp. -/
lemma step_lastUpdate (s : WhaleState) (e : Event) :
    (step s e).lastUpdate = s.lastUpdate
    ∨ (∃ p t n, e = Event.coldSuccess p t n)
    ∨ (∃ r n, e = Event.priceSuccess r n) := by
  unfold step
  split
  · exact Or.inl rfl
  · cases e
    case coldSuccess p t n => exact Or.inr (Or.inl ⟨p, t, n, rfl⟩)
    case priceSuccess r n => exact Or.inr (Or.inr ⟨r, n, rfl⟩)
    all_goals refine Or.inl ?_
    all_goals
      (simp only [initCatch, updateCurrentPriceStart,
        errorHandler, updatePriceTrendStart, updatePriceTrendThen, quitKey, periodKey,
        rowSelect, errorAck, logMsg, hideLog, updateTable, updateLine, toggleHelp,
        logError, initStart] <;>
      first
        | rfl
        | ((repeat' split) <;> rfl))

/-- An in-range `List.getD` is a member of the list. -/
lemma getD_mem {α : Type} (d : α) :
    ∀ (l : List α) (n : Nat), n < l.length → l.getD n d ∈ l
  | [], n, h => absurd h (by simp)
  | a :: t, 0, _ => by simp [List.getD]
  | a :: t, n+1, h => by
      have hm := getD_mem d t n (Nat.lt_of_succ_lt_succ h)
      simp only [List.getD] at hm ⊢
      simp only [List.get?_cons_succ]
      exact List.mem_cons_of_mem a hm

/-- One step preserves the view-state invariant, given that price payloads
honour the modelled api contract. -/
lemma stateInv_step (s : WhaleState) (e : Event) (hs : stateInv s)
    (hg : goodEvent s.markets e) : stateInv (step s e) := by
  obtain ⟨h1, h2, h3⟩ := hs
  unfold step
  split
  · exact ⟨h1, h2, h3⟩
  cases e with
  | coldSuccess p t n =>
      simp only [goodEvent] at hg
      simp only [stateInv, initThen, hideLog, updateTable, updateLine]
      split <;>
        refine ⟨h1, h2, fun l hl x hx => ?_⟩ <;>
        · simp only [Option.some.injEq] at hl
          subst hl
          exact hg ▸ List.mem_map_of_mem _ hx
  | priceSuccess p n =>
      simp only [goodEvent] at hg
      simp only [stateInv, updateCurrentPriceThen, hideLog, updateTable]
      split <;>
        refine ⟨h1, h2, fun l hl x hx => ?_⟩ <;>
        · simp only [Option.some.injEq] at hl
          subst hl
          exact hg ▸ List.mem_map_of_mem _ hx
  | coldFailure err =>
      simp only [stateInv, initCatch, errorHandler, hideLog, logError]
      split <;> exact ⟨h1, h2, h3⟩
  | priceFailure err =>
      simp only [stateInv, errorHandler, logError]
      split <;> exact ⟨h1, h2, h3⟩
  | trendFailure err =>
      simp only [stateInv, errorHandler, logError]
      split <;> exact ⟨h1, h2, h3⟩
  | priceTick =>
      simp only [stateInv, updateCurrentPriceStart, logMsg]
      split <;> exact ⟨h1, h2, h3⟩
  | trendTick =>
      simp only [stateInv, updatePriceTrendStart, logMsg]
      split <;> exact ⟨h1, h2, h3⟩
  | trendSuccess d =>
      exact ⟨h1, h2, h3⟩
  | keyQuit =>
      simp only [stateInv, quitKey, toggleHelp]
      split
      · exact ⟨h1, h2, h3⟩
      · split <;> exact ⟨h1, h2, h3⟩
  | keyHelp => exact ⟨h1, h2, h3⟩
  | keyEnter =>
      simp only [stateInv, errorAck, initStart, logMsg]
      split
      · split <;> exact ⟨h1, h2, h3⟩
      · exact ⟨h1, h2, h3⟩
  | keyPeriod ch =>
      simp only [stateInv, periodKey, updatePriceTrendStart, logMsg]
      split
      · rename_i hch
        have hmem : s.exchange.periods.getD (ch - 1) "" ∈ s.exchange.periods :=
          getD_mem "" s.exchange.periods (ch - 1) (by omega)
        split <;> exact ⟨h1, hmem, h3⟩
      · exact ⟨h1, h2, h3⟩
  | rowSelectEvt idx =>
      simp only [stateInv, rowSelect, updatePriceTrendStart, logMsg]
      split
      · split
        next l hl =>
          split
          next entry hentry =>
            have hx : entry ∈ l := List.get?_mem hentry
            have hname : entry.name ∈ s.markets := h3 l hl entry hx
            exact ⟨hname, h2, h3⟩
          next => exact ⟨h1, h2, h3⟩
        next => exact ⟨h1, h2, h3⟩
      · exact ⟨h1, h2, h3⟩

/-- A whole run preserves the markets list. -/
lemma run_markets (s : WhaleState) (es : List Event) : (run s es).markets = s.markets := by
  induction es generalizing s with
  | nil => rfl
  | cons e es ih => exact (ih (step s e)).trans (step_markets s e)

/-- A whole run preserves the exchange descriptor. -/
lemma run_exchange (s : WhaleState) (es : List Event) : (run s es).exchange = s.exchange := by
  induction es generalizing s with
  | nil => rfl
  | cons e es ih => exact (ih (step s e)).trans (step_exchange s e)

/-- A whole run of good events preserves the view-state invariant. -/
lemma run_inv (s : WhaleState) (es : List Event) (hs : stateInv s)
    (hg : ∀ e ∈ es, goodEvent s.markets e) : stateInv (run s es) := by
  induction es generalizing s with
  | nil => exact hs
  | cons e es ih =>
      refine ih (step s e) (stateInv_step s e hs (hg e (List.mem_cons_self e es))) ?_
      intro e' he'
      rw [step_markets s e]
      exact hg e' (List.mem_cons_of_mem e he')

end Whale

/-- C1, as stated by the spec, is false of the code: in `sStale` the user
has switched to ETH and the stored series describes ETH, yet when the
stale BTC trend completion is applied, `updatePriceTrend`'s `.then` stores
it unconditionally — the call is not a no-op and the stored series
changes even though the fetched series describes a market different from
`currentMarket`. -/
theorem C1_counterexample :
    sStale.currentMarket = "ETH"
    ∧ sStale.priceTrend = some trendETH
    ∧ trendBTC.currentMarket ≠ sStale.currentMarket
    ∧ (step sStale (Event.trendSuccess trendBTC)).priceTrend = some trendBTC
    ∧ (step sStale (Event.trendSuccess trendBTC)).priceTrend ≠ sStale.priceTrend := by
  decide

/-- C1 (amended): every trend-fetch completion replaces the stored trend
series with the fetched one unconditionally, whatever market the fetched
series describes — the code has no stale-response guard. -/
theorem C1_amended_trend_overwrite (s : WhaleState) (d : PriceTrend)
    (h : s.exited = none) :
    (step s (Event.trendSuccess d)).priceTrend = some d := by
  simp [step, h, Whale.updatePriceTrendThen, Whale.updateLine, Whale.hideLog]

/-- C1 witness: the amended theorem applied to the stale-response state. -/
theorem C1_amended_trend_overwrite_witness :
    (step sStale (Event.trendSuccess trendBTC)).priceTrend = some trendBTC :=
  C1_amended_trend_overwrite sStale trendBTC (by decide)

/-- C2: `running` starts false at construction, is set true only by a
cold-fetch success event (the `.then` of `init`, reached only when the
`Promise.all` of both the current-price and the trend fetch resolves),
and no event ever resets it: once true it stays true. -/
theorem C2_running_one_way (ex : Exchange) (mks : List String)
    (s : WhaleState) (e : Event) :
    (Whale.new ex mks).running = false
    ∧ (s.running = true → (step s e).running = true)
    ∧ ((step s e).running = true →
        s.running = true ∨ ∃ p t n, e = Event.coldSuccess p t n) := by
  refine ⟨rfl, ?_, ?_⟩
  · intro h
    rcases Whale.step_running s e with h' | ⟨p, t, n, rfl⟩
    · rw [h', h]
    · unfold step
      split
      · exact h
      · simp only [Whale.initThen, Whale.hideLog, Whale.updateTable, Whale.updateLine]
        split <;> rfl
  · intro h
    rcases Whale.step_running s e with h' | he
    · rw [h'] at h
      exact Or.inl h
    · exact Or.inr he

/-- C2 witness: a cold-started state stays running across a price tick,
and a trend tick that finds `running` true implies it was already true. -/
theorem C2_running_one_way_witness :
    (step sRun Event.priceTick).running = true
    ∧ (sRun.running = true ∨ ∃ p t n, Event.trendTick = Event.coldSuccess p t n) :=
  ⟨(C2_running_one_way exBF mkBF sRun Event.priceTick).2.1 (by decide),
   (C2_running_one_way exBF mkBF sRun Event.trendTick).2.2 (by decide)⟩

/-- C3, as stated by the spec, is false of the code: in `sErr` the error
overlay is active, yet pressing a period key still changes
`currentPeriod` — the screen-level period-key handler has no guard on the
error overlay, so the key press is not inert. -/
theorem C3_counterexample :
    sErr.errorVisible = true
    ∧ (step sErr (Event.keyPeriod 2)).currentPeriod ≠ sErr.currentPeriod := by
  decide

/-- C3 (amended): while the error overlay is active, input is not
suppressed — a period key still updates `currentPeriod` (and triggers a
trend fetch via `updatePriceTrend` when running); the acknowledgement key
does behave as claimed: it hides the error overlay, runs the pending
callback when one was bound (re-issuing the cold fetch), and restores
focus to the table. -/
theorem C3_amended_error_overlay (s : WhaleState) (h : s.exited = none)
    (he : s.errorVisible = true) :
    ((step s Event.keyEnter).errorVisible = false
     ∧ (step s Event.keyEnter).focus = Focus.table
     ∧ (s.pendingCb = true → (step s Event.keyEnter).coldFetches = s.coldFetches + 1)
     ∧ (s.pendingCb = false →
          step s Event.keyEnter
            = { s with errorVisible := false, focus := Focus.table, pendingCb := false }))
    ∧ (∀ ch, 1 ≤ ch → ch ≤ s.exchange.periods.length →
        (step s (Event.keyPeriod ch)).currentPeriod
          = s.exchange.periods.getD (ch - 1) "") := by
  constructor
  · simp only [step, h, Option.isSome_none, Bool.false_eq_true, if_false,
      Whale.errorAck, he, if_true, Whale.initStart, Whale.logMsg]
    by_cases hcb : s.pendingCb
    · simp [hcb]
    · simp [hcb]
  · intro ch h1 h2
    simp only [step, h, Option.isSome_none, Bool.false_eq_true, if_false,
      Whale.periodKey, Whale.updatePriceTrendStart, Whale.logMsg]
    rw [if_pos ⟨h1, h2⟩]
    split <;> rfl

/-- C3 witness: the amended theorem applied to the error-overlay state. -/
theorem C3_amended_error_overlay_witness :
    (step sErr Event.keyEnter).errorVisible = false
    ∧ (step sErr (Event.keyPeriod 2)).currentPeriod
        = sErr.exchange.periods.getD (2 - 1) "" :=
  ⟨((C3_amended_error_overlay sErr (by decide) (by decide)).1).1,
   (C3_amended_error_overlay sErr (by decide) (by decide)).2 2 (by decide) (by decide)⟩

/-- C4: in the cold-started state (help hidden, both intervals live,
`timer` never assigned) pressing quit exits with code 0, but neither
interval is cleared: the guard `this.timer && clearInterval(this.timer)`
reads the never-assigned `timer` field, while the interval handles live in
`timers.price` and `timers.trend`. -/
theorem C4_quit_timers_uncancelled :
    sRun.helpVisible = false
    ∧ sRun.timer = none
    ∧ (step sRun Event.keyQuit).exited = some 0
    ∧ (step sRun Event.keyQuit).priceTimerActive = true
    ∧ (step sRun Event.keyQuit).trendTimerActive = true := by
  decide

/-- C5, as stated by the spec, is false of the code: with `running` still
false (cold start not yet finished) a period key press is not a complete
no-op — the handler assigns `currentPeriod` before calling
`updatePriceTrend`, whose `running` guard only skips the fetch. -/
theorem C5_counterexample :
    (Whale.new exBF mkBF).running = false
    ∧ (step (Whale.new exBF mkBF) (Event.keyPeriod 2)).currentPeriod
        ≠ (Whale.new exBF mkBF).currentPeriod := by
  decide

/-- C5 (amended): a period key N always sets `currentPeriod` to the N-th
element of `exchange.periods`, whether or not `running`; while running it
also immediately issues a trend fetch (not waiting for the periodic
timer), and while not running the assignment to `currentPeriod` is the
only state change (the fetch is skipped). -/
theorem C5_amended_period_key (s : WhaleState) (ch : Nat) (h : s.exited = none)
    (h1 : 1 ≤ ch) (h2 : ch ≤ s.exchange.periods.length) :
    (step s (Event.keyPeriod ch)).currentPeriod
      = s.exchange.periods.getD (ch - 1) ""
    ∧ (s.running = true →
        (step s (Event.keyPeriod ch)).trendFetches = s.trendFetches + 1)
    ∧ (s.running = false →
        step s (Event.keyPeriod ch)
          = { s with currentPeriod := s.exchange.periods.getD (ch - 1) "" }) := by
  have hs : step s (Event.keyPeriod ch)
      = Whale.updatePriceTrendStart
          { s with currentPeriod := s.exchange.periods.getD (ch - 1) "" } := by
    simp only [step, h, Option.isSome_none, Bool.false_eq_true, if_false,
      Whale.periodKey]
    rw [if_pos ⟨h1, h2⟩]
  refine ⟨?_, ?_, ?_⟩
  · rw [hs]
    simp only [Whale.updatePriceTrendStart, Whale.logMsg]
    split <;> rfl
  · intro hr
    rw [hs]
    simp [Whale.updatePriceTrendStart, Whale.logMsg, hr]
  · intro hr
    rw [hs]
    simp [Whale.updatePriceTrendStart, hr]

/-- C5 witness: the amended theorem applied in a running state. -/
theorem C5_amended_period_key_witness :
    (step sRun (Event.keyPeriod 2)).currentPeriod
      = sRun.exchange.periods.getD (2 - 1) ""
    ∧ (step sRun (Event.keyPeriod 2)).trendFetches = sRun.trendFetches + 1 :=
  ⟨(C5_amended_period_key sRun 2 (by decide) (by decide) (by decide)).1,
   (C5_amended_period_key sRun 2 (by decide) (by decide) (by decide)).2.1 (by decide)⟩

/-- C6: for every event sequence (selection events included) in which the
current-price payloads honour the modelled api contract, `currentMarket`
stays in the construction-time markets list and `currentPeriod` stays in
`exchange.periods`, provided the construction-time period (JS
`defaultPeriod || periods[0]`) lies in `exchange.periods`. -/
theorem C6_selection_invariant (ex : Exchange) (m : String) (mkr : List String)
    (es : List Event)
    (hper : Whale.jsOr ex.defaultPeriod (ex.periods.headD "") ∈ ex.periods)
    (hg : ∀ e ∈ es, goodEvent (m :: mkr) e) :
    (run (Whale.new ex (m :: mkr)) es).currentMarket ∈ m :: mkr
    ∧ (run (Whale.new ex (m :: mkr)) es).currentPeriod ∈ ex.periods := by
  have h0 : stateInv (Whale.new ex (m :: mkr)) := by
    refine ⟨List.mem_cons_self m mkr, hper, ?_⟩
    intro l hl
    exact absurd hl (by simp [Whale.new])
  have hinv := Whale.run_inv (Whale.new ex (m :: mkr)) es h0 hg
  have hm := Whale.run_markets (Whale.new ex (m :: mkr)) es
  have he := Whale.run_exchange (Whale.new ex (m :: mkr)) es
  constructor
  · have h1 := hinv.1
    rwa [hm] at h1
  · have h2 := hinv.2.1
    rwa [he] at h2

/-- C6 witness: a run with a cold-start success, a row selection and a
period key keeps both selections inside their lists. -/
theorem C6_selection_invariant_witness :
    (run (Whale.new exBF ("BTC" :: ["ETH"]))
        [Event.coldSuccess entriesBF trendBTC 5, Event.rowSelectEvt 1,
         Event.keyPeriod 2]).currentMarket ∈ "BTC" :: ["ETH"]
    ∧ (run (Whale.new exBF ("BTC" :: ["ETH"]))
        [Event.coldSuccess entriesBF trendBTC 5, Event.rowSelectEvt 1,
         Event.keyPeriod 2]).currentPeriod ∈ exBF.periods :=
  C6_selection_invariant exBF "BTC" ["ETH"]
    [Event.coldSuccess entriesBF trendBTC 5, Event.rowSelectEvt 1, Event.keyPeriod 2]
    (by decide)
    (by intro e he
        simp only [List.mem_cons, List.not_mem_nil, or_false] at he
        rcases he with rfl | rfl | rfl <;> simp [goodEvent, entriesBF])

/-- C7: every fetch-failure event (cold, price or trend) is routed through
`errorHandler`: a rejection whose `response && response.request` is truthy
opens the error overlay and does not terminate the process, and any other
rejection terminates the process with exit code 1. -/
theorem C7_failure_policy (s : WhaleState) (err : JsError) (h : s.exited = none) :
    ∀ e ∈ [Event.coldFailure err, Event.priceFailure err, Event.trendFailure err],
      (Whale.isTransportError err = true →
        (step s e).errorVisible = true ∧ (step s e).exited = none)
      ∧ (Whale.isTransportError err = false → (step s e).exited = some 1) := by
  intro e he
  simp only [List.mem_cons, List.not_mem_nil, or_false] at he
  rcases he with rfl | rfl | rfl <;>
    refine ⟨?_, ?_⟩ <;>
      (intro hx
       simp [step, h, Whale.initCatch, Whale.errorHandler, Whale.hideLog,
         Whale.logError, hx])

/-- C7 witness: a transport failure of a price tick opens the overlay
without exiting; an internal failure of a trend tick exits with code 1. -/
theorem C7_failure_policy_witness :
    ((step sRun (Event.priceFailure errT)).errorVisible = true
     ∧ (step sRun (Event.priceFailure errT)).exited = none)
    ∧ (step sRun (Event.trendFailure errI)).exited = some 1 :=
  ⟨(C7_failure_policy sRun errT (by decide)
      (Event.priceFailure errT) (by decide)).1 (by decide),
   (C7_failure_policy sRun errI (by decide)
      (Event.trendFailure errI) (by decide)).2 (by decide)⟩

/-- C8: with the help overlay visible, the quit key only hides the help
box (`toggleHelp`): the process does not exit and both interval flags are
untouched. -/
theorem C8_quit_closes_help (s : WhaleState) (h : s.exited = none)
    (hh : s.helpVisible = true) :
    (step s Event.keyQuit).helpVisible = false
    ∧ (step s Event.keyQuit).exited = none
    ∧ (step s Event.keyQuit).priceTimerActive = s.priceTimerActive
    ∧ (step s Event.keyQuit).trendTimerActive = s.trendTimerActive := by
  simp [step, h, Whale.quitKey, hh, Whale.toggleHelp]

/-- C8 witness: open help with the help key in the cold-started state and
press quit. -/
theorem C8_quit_closes_help_witness :
    (step (step sRun Event.keyHelp) Event.keyQuit).helpVisible = false
    ∧ (step (step sRun Event.keyHelp) Event.keyQuit).exited = none :=
  ⟨(C8_quit_closes_help (step sRun Event.keyHelp) (by decide) (by decide)).1,
   (C8_quit_closes_help (step sRun Event.keyHelp) (by decide) (by decide)).2.1⟩

/-- C9: the constructor sets `currentMarket := markets[0]` and
`currentPeriod := exchange.defaultPeriod || exchange.periods[0]`: the
default period when that field is set (to a non-empty, i.e. truthy,
string), else the first period. -/
theorem C9_initial_selection (ex : Exchange) (m : String) (mkr : List String)
    (q : String) (ps : List String) (hps : ex.periods = q :: ps) :
    (Whale.new ex (m :: mkr)).currentMarket = m
    ∧ (∀ p, ex.defaultPeriod = some p → p ≠ "" →
        (Whale.new ex (m :: mkr)).currentPeriod = p)
    ∧ (ex.defaultPeriod = none → (Whale.new ex (m :: mkr)).currentPeriod = q) := by
  refine ⟨rfl, ?_, ?_⟩
  · intro p hp hne
    simp [Whale.new, Whale.jsOr, hp, hne]
  · intro hp
    simp [Whale.new, Whale.jsOr, hp, hps]

/-- C9 witness: with a default period set it is taken; without one the
first period is taken. -/
theorem C9_initial_selection_witness :
    (Whale.new exDP ("BTC" :: ["ETH"])).currentPeriod = "1d"
    ∧ (Whale.new exBF ("BTC" :: ["ETH"])).currentPeriod = "1h" :=
  ⟨(C9_initial_selection exDP "BTC" ["ETH"] "1h" ["1d"] (by decide)).2.1
      "1d" (by decide) (by decide),
   (C9_initial_selection exBF "BTC" ["ETH"] "1h" ["1d"] (by decide)).2.2 (by decide)⟩

/-- C10: a successful trend completion changes neither `lastUpdate` nor
the stored price entries; an event that does change `lastUpdate` can only
be a cold-start success or a price-fetch success, and those two stamp it
with the completion time. -/
theorem C10_trend_fetch_frame (s : WhaleState) (d : PriceTrend) (e : Event)
    (h : s.exited = none) :
    ((step s (Event.trendSuccess d)).lastUpdate = s.lastUpdate
     ∧ (step s (Event.trendSuccess d)).currentPrice = s.currentPrice)
    ∧ ((step s e).lastUpdate ≠ s.lastUpdate →
        (∃ p t n, e = Event.coldSuccess p t n) ∨ ∃ r n, e = Event.priceSuccess r n)
    ∧ (∀ p t n, (step s (Event.coldSuccess p t n)).lastUpdate = some n)
    ∧ (∀ r n, (step s (Event.priceSuccess r n)).lastUpdate = some n) := by
  refine ⟨?_, ?_, ?_, ?_⟩
  · simp [step, h, Whale.updatePriceTrendThen, Whale.updateLine, Whale.hideLog]
  · intro hne
    rcases Whale.step_lastUpdate s e with h' | h'
    · exact absurd h' hne
    · exact h'
  · intro p t n
    simp only [step, h, Option.isSome_none, Bool.false_eq_true, if_false,
      Whale.initThen, Whale.hideLog, Whale.updateTable, Whale.updateLine]
    split <;> rfl
  · intro r n
    simp only [step, h, Option.isSome_none, Bool.false_eq_true, if_false,
      Whale.updateCurrentPriceThen, Whale.hideLog, Whale.updateTable]
    split <;> rfl

/-- C10 witness: the frame facts evaluated after the cold start, with an
ETH trend completion landing. -/
theorem C10_trend_fetch_frame_witness :
    (step sRun (Event.trendSuccess trendETH)).lastUpdate = sRun.lastUpdate
    ∧ (step sRun (Event.trendSuccess trendETH)).currentPrice = sRun.currentPrice :=
  (C10_trend_fetch_frame sRun trendETH Event.priceTick (by decide)).1
